import Mathlib

/-!
Verification of the tabular cleaning and preprocessing utility
(`taller3/transformadores_red.py`).

The development shallowly embeds the program:

* `Cell` is the value space of one table cell: `missing` (NaN / NA),
  `num` (a numeric value, modelled exactly as a rational), or `str` text.
* `LimpiarComillas.clean_cell` embeds the static method `_clean_cell`.
* `cleanHeaders` embeds the header stripping / deduplication loop of
  `LimpiarComillas.transform`.
* `pipeline_red_transform` embeds the two step cleaning pipeline
  (`ConvertirObjectAString` then `LimpiarComillas`).
* `crear_pipeline_completo` and the fit/transform model embed the
  preprocessing assembly (`StandardScaler` + `OneHotEncoder` inside a
  `ColumnTransformer`); the scikit-learn primitives themselves are external
  black boxes, modelled from the specification.

All functions are total: the Python code never raises for malformed cell
content (`pd.to_numeric(..., errors="coerce")` silently yields NaN), and
totality of the embedding mirrors that.
-/

/-- A cell value: missing (NaN/NA), numeric, or textual.  Numeric values are
modelled exactly as rationals; every number the program itself produces is a
finite decimal, which a rational represents exactly. -/
inductive Cell where
  | missing : Cell
  | num : Rat → Cell
  | str : String → Cell
deriving DecidableEq

/-- The character set of Python's `str.strip(" '")`: ASCII space and the
single-quote character. -/
def stripSet (c : Char) : Bool := c = ' ' || c = '\''

/-- The characters Python treats as whitespace on a `str`
(`Py_UNICODE_ISSPACE`, the set `str.isspace` accepts): the ASCII whitespace
and separators, NEL, NBSP, and the Unicode space separators.  The regex
class `\s` matches exactly these in the default Unicode mode of
`re.fullmatch` on a `str`. -/
def pySpaceChars : List Char :=
  [' ', '\t', '\n', '\r', '\x0b', '\x0c',
   '\x1c', '\x1d', '\x1e', '\x1f', '\x85', '\xa0',
   '\u1680', '\u2000', '\u2001', '\u2002', '\u2003', '\u2004', '\u2005',
   '\u2006', '\u2007', '\u2008', '\u2009', '\u200a',
   '\u2028', '\u2029', '\u202f', '\u205f', '\u3000']

/-- Model of the regex class `\s` as `re.fullmatch` applies it to a `str`:
Python's Unicode whitespace. -/
def wsClass (c : Char) : Bool := pySpaceChars.contains c

/-- The whitespace characters `float()` ignores at the ends of its string
argument: Python's whitespace minus the separator controls `\x1c`-`\x1f`,
which `\s` matches but `float()` rejects. -/
def floatSpaceChars : List Char :=
  [' ', '\t', '\n', '\r', '\x0b', '\x0c', '\x85', '\xa0',
   '\u1680', '\u2000', '\u2001', '\u2002', '\u2003', '\u2004', '\u2005',
   '\u2006', '\u2007', '\u2008', '\u2009', '\u200a',
   '\u2028', '\u2029', '\u202f', '\u205f', '\u3000']

/-- A character `float()` strips from either end before parsing. -/
def floatSpace (c : Char) : Bool := floatSpaceChars.contains c

/-- Remove the longest prefix and suffix whose characters satisfy `p`
(the list-level meaning of Python's `str.strip`). -/
def trimEnds (p : Char → Bool) (l : List Char) : List Char :=
  ((l.dropWhile p).reverse.dropWhile p).reverse

/-- `val.strip(" '")`. -/
def stripChars (s : String) : String := ⟨trimEnds stripSet s.data⟩

/-- A character allowed by the regex `[0-9\.,\s]`. -/
def patChar (c : Char) : Bool := c.isDigit || c = '.' || c = ',' || wsClass c

/-- `re.fullmatch(r"[0-9\.,\s]+", v)`: the whole (nonempty) string consists
of digits, periods, commas and whitespace. -/
def numPattern (s : String) : Bool := !s.data.isEmpty && s.data.all patChar

/-- `v.replace(" ", "")`: delete every ASCII space (and nothing else). -/
def removeSpaces (s : String) : String := ⟨s.data.filter (fun c => c ≠ ' ')⟩

/-- `v.replace(",", ".")`: turn every comma into a period. -/
def commaToPeriod (s : String) : String :=
  ⟨s.data.map (fun c => if c = ',' then '.' else c)⟩

/-- The numeric value of a big-endian list of decimal digit characters. -/
def digitsToNat (l : List Char) : Nat :=
  l.foldl (fun a c => a * 10 + (c.toNat - 48)) 0

/-- Is the (already trimmed) character list a valid positional float literal
as accepted by Python's `float`, restricted to the characters reachable
here: at least one digit, only digits and periods, at most one period. -/
def isFloatLit (l : List Char) : Bool :=
  l.any Char.isDigit && l.all (fun c => c.isDigit || c = '.') &&
    l.count '.' ≤ 1

/-- `pd.to_numeric(s, errors="coerce")` on a string: leading/trailing
`float()`-strippable whitespace is ignored, then the remainder must be a
decimal literal, whose exact value is returned; anything else (commas,
multiple periods, internal or non-strippable whitespace, no digit) coerces
to NaN (`none`).  Faithful on the strings reachable from `_clean_cell`
(digits, periods, commas and non-ASCII-space whitespace). -/
def parseDecimal (s : String) : Option Rat :=
  if isFloatLit (trimEnds floatSpace s.data) then
    some ((digitsToNat ((trimEnds floatSpace s.data).takeWhile (fun c => c ≠ '.')) : Rat) +
      (digitsToNat (((trimEnds floatSpace s.data).dropWhile (fun c => c ≠ '.')).drop 1) : Rat) /
        (10 : Rat) ^ (((trimEnds floatSpace s.data).dropWhile (fun c => c ≠ '.')).drop 1).length)
  else none

namespace LimpiarComillas

/-- Lines 27-28 of `_clean_cell`: `if "," in v_num and "." not in v_num:
v_num = v_num.replace(",", ".")`. -/
def coerceCommas (s : String) : String :=
  if s.data.contains ',' && !s.data.contains '.' then commaToPeriod s else s

/-- `LimpiarComillas._clean_cell(val, cast_numeric)`:

```python
if not isinstance(val, str): return val
v = val.strip(" '")
if re.fullmatch(r"[0-9\.,\s]+", v):
    v_num = v.replace(" ", "")
    if cast_numeric:
        if "," in v_num and "." not in v_num:
            v_num = v_num.replace(",", ".")
        return pd.to_numeric(v_num, errors="coerce")
    return v_num
return v
``` -/
def clean_cell (val : Cell) (cast_numeric : Bool) : Cell :=
  match val with
  | Cell.str s =>
    let v := stripChars s
    if numPattern v then
      let vnum := removeSpaces v
      if cast_numeric then
        match parseDecimal (coerceCommas vnum) with
        | some q => Cell.num q
        | none => Cell.missing
      else Cell.str vnum
    else Cell.str v
  | v => v

end LimpiarComillas

/-- Decimal digit character `d ↦ '0'+d`. -/
def digitCh (d : Nat) : Char := Char.ofNat (48 + d)

/-- Little-endian decimal digits of `m`, with explicit fuel so that the
definition is structurally recursive (and hence kernel-reducible). -/
def digitsRev (fuel m : Nat) : List Char :=
  match fuel with
  | 0 => []
  | fuel + 1 => if m = 0 then [] else digitCh (m % 10) :: digitsRev fuel (m / 10)

/-- Big-endian decimal digits of `m` (`"0"` for zero). -/
def natDigits (m : Nat) : List Char :=
  if m = 0 then ['0'] else (digitsRev m m).reverse

/-- Decimal rendering of a natural number, as Python's `str`/f-strings
produce it. -/
def natToStr (m : Nat) : String := ⟨natDigits m⟩

/-- `f"{c}_{cnt}" if cnt else c`: the name assigned to an occurrence of the
base name `c` whose running occurrence counter is `cnt`. -/
def rename (c : String) (cnt : Nat) : String :=
  if cnt = 0 then c else c ++ "_" ++ natToStr cnt

/-- The deduplication loop of `LimpiarComillas.transform`:

```python
seen, cols_clean = {}, []
for c in cols_raw:
    cnt = seen.get(c, 0)
    cols_clean.append(f"{c}_{cnt}" if cnt else c)
    seen[c] = cnt + 1
```

The dictionary `seen` is modelled as a function with pointwise update. -/
def dedupGo (seen : String → Nat) : List String → List String
  | [] => []
  | c :: rest =>
    rename c (seen c) ::
      dedupGo (fun x => if x = c then seen c + 1 else seen x) rest

/-- The header phase of `LimpiarComillas.transform`: strip `" '"` from every
column name, then deduplicate with per-name counters. -/
def cleanHeaders (cols : List String) : List String :=
  dedupGo (fun _ => 0) (cols.map stripChars)


/-- A column: its header name, whether its dtype is textual (pandas `object`
or `string`, the columns `select_dtypes(include=["object", "string"])`
selects), and its cells. -/
abbrev Col := String × Bool × List Cell

/-- A table: an ordered list of named columns (`pd.DataFrame`). -/
abbrev Table := List Col

def colName (c : Col) : String := c.1

def colTextual (c : Col) : Bool := c.2.1

def colCells (c : Col) : List Cell := c.2.2

def tableNames (t : Table) : List String := t.map colName

/-- The last `k` decimal digits of `m` (`m < 10 ^ k`), leading zeros included. -/
def fracDigits (m k : Nat) : List Char :=
  List.replicate (k - (natDigits m).length) '0' ++ natDigits m

/-- The decimal rendering of `n / 10 ^ k` with `k ≥ 1` digits after the point. -/
def decimalString (n k : Nat) : List Char :=
  natDigits (n / 10 ^ k) ++ '.' :: fracDigits (n % 10 ^ k) k

/-- Decimal rendering of an integer (used only in the fallback branch of
`renderRat`). -/
def intToStr (z : Int) : String :=
  if z < 0 then "-" ++ natToStr z.natAbs else natToStr z.toNat

/-- Modelled from the spec: the Type Normalizer (`astype("string")`) renders a
numeric value held in a textual column as its decimal string.  Every numeric
value the program itself produces is a nonnegative finite decimal, rendered
exactly by the first branch; other rationals (unreachable from parsing) get an
inert `num/den` rendering that the cleaner leaves untouched. -/
def renderRat (q : Rat) : String :=
  if 0 ≤ q.num ∧ q.den ∣ 10 ^ q.den then
    ⟨decimalString (q.num.toNat * (10 ^ q.den / q.den)) q.den⟩
  else intToStr q.num ++ "/" ++ natToStr q.den

/-- `ConvertirObjectAString.transform` at the level of one cell of a textual
column: `astype("string")` renders non-missing, non-string values (floats
produced by earlier coercion) as text and leaves strings and missing values
alone. -/
def convertirCell (v : Cell) : Cell :=
  match v with
  | Cell.num q => Cell.str (renderRat q)
  | v => v

/-- `LimpiarComillas.transform(X)`: clean the column names (strip and
deduplicate), then apply `_clean_cell` elementwise to every column whose
dtype is `object` or `string`; numeric-dtype columns are untouched.  The
`X.copy()` is implicit: the function builds a new table. -/
def LimpiarComillas.transform (cast_numeric : Bool) (t : Table) : Table :=
  List.zipWith
    (fun n c => (n, colTextual c,
      if colTextual c then (colCells c).map (fun v => LimpiarComillas.clean_cell v cast_numeric)
      else colCells c))
    (cleanHeaders (tableNames t)) t

/-- `ConvertirObjectAString.transform(X)`: convert every `object`/`string`
column to the pandas `string` dtype; elementwise this renders non-missing,
non-string values as text (`convertirCell`) and keeps the textual dtype
flag. -/
def ConvertirObjectAString.transform (t : Table) : Table :=
  t.map (fun c => (colName c, colTextual c,
    if colTextual c then (colCells c).map convertirCell else colCells c))

/-- The configuration `crear_pipeline_completo(X)` assembles: the
categorical (textual-dtype) and numeric column names are read off the raw
input `X`, the encoder is built with `handle_unknown="ignore"` and
`sparse_output=True`, and the `ColumnTransformer` gets
`sparse_threshold=0.0`. -/
structure PreprocConfig where
  columnas_categoricas : List String
  columnas_numericas : List String
  handle_unknown_ignore : Bool
  sparse_output : Bool
  sparse_threshold : Rat
deriving DecidableEq

def crear_pipeline_completo (X : Table) : PreprocConfig :=
  ⟨(X.filter (fun c => colTextual c)).map colName,
   (X.filter (fun c => !colTextual c)).map colName,
   true, true, 0⟩

/-- Modelled from the spec: a fitted preprocessor remembers, per numeric
column, the mean and the (variance-based) scale, and per categorical column
the vocabulary of distinct observed values. -/
structure FittedPreproc where
  numStats : List (String × Rat × Rat)
  catVocabs : List (String × List Cell)
deriving DecidableEq

/-- Column selection by name (missing columns yield no cells). -/
def lookupCol (t : Table) (n : String) : List Cell :=
  match t.find? (fun c => colName c = n) with
  | some c => colCells c
  | none => []

def cellAt (t : Table) (n : String) (i : Nat) : Cell :=
  (lookupCol t n).getD i Cell.missing

/-- Modelled from the spec: standardization of one numeric cell. -/
def scaleCell (m sc : Rat) (v : Cell) : Cell :=
  match v with
  | Cell.num x => Cell.num ((x - m) / sc)
  | _ => Cell.missing

/-- Modelled from the spec: one-hot encoding of one categorical cell against
a fitted vocabulary.  With `handle_unknown="ignore"` (`ignore = true`) an
unseen value becomes the all-zero indicator row; with `"error"` the
transform fails (`none`), which models the raised exception. -/
def oheTransformCell (ignore : Bool) (cats : List Cell) (v : Cell) : Option (List Cell) :=
  if v ∈ cats then some (cats.map (fun c => if c = v then Cell.num 1 else Cell.num 0))
  else if ignore then some (cats.map (fun _ => Cell.num 0))
  else none

/-- Modelled from the spec: one output row — the scaled numeric entries
followed by the concatenated one-hot blocks (column-wise concatenation of
the two branches); `none` models a raised exception. -/
def transformRowAt (cfg : PreprocConfig) (f : FittedPreproc) (t : Table) (i : Nat) :
    Option (List Cell) :=
  (f.catVocabs.mapM
      (fun s => oheTransformCell cfg.handle_unknown_ignore s.2 (cellAt t s.1 i))).map
    (fun catRows =>
      f.numStats.map (fun s => scaleCell s.2.1 s.2.2 (cellAt t s.1 i)) ++ catRows.flatten)

/-- Modelled from the spec: a `ColumnTransformer` emits a sparse matrix only
when some branch produced one and the overall density is strictly below
`sparse_threshold`; otherwise the result is materialized dense. -/
def outputSparse (sparseThreshold : Rat) (anySparse : Bool) (density : Rat) : Bool :=
  anySparse && decide (density < sparseThreshold)

/-- The header the specification prescribes at position `i`: strip the name;
the first occurrence of a stripped base name is kept verbatim and the k-th
repetition becomes `base_k`, where k counts the equal stripped names among
the earlier columns. -/
def specHeaderAt (cols : List String) (i : Nat) : String :=
  rename ((cols.map stripChars).getD i "")
    (((cols.map stripChars).take i).count ((cols.map stripChars).getD i ""))



/-! ### Generic lemmas about `trimEnds` -/

theorem trimEnds_eq_nil {p : Char → Bool} {l : List Char}
    (h : ∀ c ∈ l, p c = true) : trimEnds p l = [] := by
  have h1 : l.dropWhile p = [] := by
    induction l with
    | nil => rfl
    | cons a t ih =>
      rw [List.dropWhile_cons_of_pos (h a (by simp))]
      exact ih (fun c hc => h c (by simp [hc]))
  unfold trimEnds
  rw [h1]
  rfl

/-! ### `stripChars` lemmas -/

theorem string_data_injective {s t : String} (h : s.data = t.data) : s = t := by
  cases s; cases t; exact congrArg String.mk h

theorem stripChars_data (s : String) : (stripChars s).data = trimEnds stripSet s.data := rfl

/-! ### Digit characters and decimal renderings -/

theorem digit_not_contains {l : List Char} (hall : ∀ x ∈ l, x.isDigit = false)
    {c : Char} (h : c.isDigit = true) : l.contains c = false := by
  rw [List.contains_eq_any_beq, List.any_eq_false]
  intro d hd
  simp only [beq_iff_eq]
  intro he
  rw [he, hall d hd] at h
  exact Bool.false_ne_true h

theorem digit_not_wsClass {c : Char} (h : c.isDigit = true) : wsClass c = false := by
  unfold wsClass
  exact digit_not_contains (by decide) h

theorem dedupGo_length (seen : String → Nat) (l : List String) :
    (dedupGo seen l).length = l.length := by
  induction l generalizing seen with
  | nil => rfl
  | cons c t ih => simp [dedupGo, ih]

theorem dedupGo_getD :
    ∀ (l : List String) (seen : String → Nat) (i : Nat), i < l.length →
      (dedupGo seen l).getD i "" =
        rename (l.getD i "") (seen (l.getD i "") + (l.take i).count (l.getD i "")) := by
  intro l
  induction l with
  | nil => intro seen i hi; simp at hi
  | cons c t ih =>
    intro seen i hi
    cases i with
    | zero => simp [dedupGo]
    | succ j =>
      have hj : j < t.length := by simpa using hi
      simp only [dedupGo, List.getD_cons_succ, List.take_succ_cons]
      rw [ih _ j hj]
      set b := t.getD j "" with hb
      by_cases hbc : b = c
      · subst hbc
        simp [List.count_cons, Nat.add_assoc, Nat.add_comm 1]
      · rw [if_neg hbc, List.count_cons_of_ne hbc]

theorem cleanHeaders_length (cols : List String) :
    (cleanHeaders cols).length = cols.length := by
  simp [cleanHeaders, dedupGo_length]

theorem contains_eq_false_of_not_mem {l : List Char} {a : Char} (h : a ∉ l) :
    l.contains a = false := by
  rw [List.contains_eq_any_beq]
  rw [List.any_eq_false]
  intro c hc
  simp only [beq_iff_eq]
  intro he
  exact h (he ▸ hc)

theorem map_colName_zipWith (g : String → Col → Bool × List Cell) :
    ∀ (ns : List String) (cs : Table), ns.length = cs.length →
      (List.zipWith (fun n c => (n, g n c)) ns cs).map colName = ns := by
  intro ns
  induction ns with
  | nil => intro cs _; rfl
  | cons n t ih =>
    intro cs hl
    cases cs with
    | nil => simp at hl
    | cons c ct =>
      simp only [List.zipWith_cons_cons, List.map_cons]
      rw [ih ct (by simpa using hl)]
      rfl

theorem tableNames_limpiar (b : Bool) (t : Table) :
    tableNames (LimpiarComillas.transform b t) = cleanHeaders (tableNames t) := by
  unfold tableNames LimpiarComillas.transform
  exact map_colName_zipWith _ _ _
    (by rw [cleanHeaders_length]; simp [tableNames])

theorem oheTransformCell_ignore_isSome (cats : List Cell) (v : Cell) :
    ∃ r, oheTransformCell true cats v = some r := by
  unfold oheTransformCell
  by_cases hv : v ∈ cats
  · exact ⟨_, by rw [if_pos hv]⟩
  · exact ⟨_, by rw [if_neg hv, if_pos rfl]⟩

/-- C3: header cleaning strips every name and renames the k-th repetition of
a stripped base name to `base_k` (first occurrence kept verbatim), counters
independent per base name, order and length preserved; in particular
`["x", "x", "x"]` becomes `["x", "x_1", "x_2"]`. -/
theorem header_dedup_spec (cols : List String) (i : Nat) (h : i < cols.length) :
    (cleanHeaders cols).length = cols.length ∧
    (cleanHeaders cols).getD i "" = specHeaderAt cols i ∧
    cleanHeaders ["x", "x", "x"] = ["x", "x_1", "x_2"] := by
  refine ⟨cleanHeaders_length cols, ?_, by decide⟩
  unfold cleanHeaders specHeaderAt
  rw [dedupGo_getD _ _ i (by simpa using h)]
  simp

theorem header_dedup_spec_witness :
    (cleanHeaders ["x", "x", "x"]).getD 2 "" = specHeaderAt ["x", "x", "x"] 2 :=
  (header_dedup_spec ["x", "x", "x"] 2 (by decide)).2.1

/-- C4 counterexample: the cell `"1\t2"` matches the numeric pattern (tab is
whitespace), yet the cleaner keeps the tab: only ASCII spaces are removed,
so the claimed removal of every whitespace character does not hold. -/
theorem whitespace_removal_counterexample :
    LimpiarComillas.clean_cell (Cell.str "1\t2") false = Cell.str "1\t2" ∧
    Cell.str "1\t2" ≠ Cell.str "12" := by decide

/-- C4 (amended): for a pattern-matching cell only the ASCII space
characters are removed before any coercion (other whitespace survives), and
a cell whose stripped form does not fully match the pattern is kept
stripped as-is under either flag. -/
theorem space_removal_only_ascii (s : String) :
    (numPattern (stripChars s) = true →
      LimpiarComillas.clean_cell (Cell.str s) false =
        Cell.str ⟨(stripChars s).data.filter (fun c => c ≠ ' ')⟩) ∧
    (numPattern (stripChars s) = false → ∀ b : Bool,
      LimpiarComillas.clean_cell (Cell.str s) b = Cell.str (stripChars s)) := by
  constructor
  · intro h
    simp [LimpiarComillas.clean_cell, h, removeSpaces]
  · intro h b
    simp [LimpiarComillas.clean_cell, h]

theorem space_removal_only_ascii_witness :
    LimpiarComillas.clean_cell (Cell.str "' 1 2 '") false = Cell.str "12" ∧
    LimpiarComillas.clean_cell (Cell.str "1 \u00a02") false = Cell.str "1\u00a02" ∧
    LimpiarComillas.clean_cell (Cell.str "' a b '") true = Cell.str "a b" := by
  refine ⟨?_, ?_, ?_⟩
  · rw [(space_removal_only_ascii "' 1 2 '").1 (by decide)]
    decide
  · rw [(space_removal_only_ascii "1 \u00a02").1 (by decide)]
    decide
  · rw [(space_removal_only_ascii "' a b '").2 (by decide) true]
    decide

/-- C5: with coercion disabled a pattern-matching cell is kept as text with
spaces removed and the separators preserved (every comma and period
survives); in particular `"' 1 234,56 '"` yields the text `"1234,56"` when
coercion is disabled and the numeric value `1234.56` when it is enabled. -/
theorem no_coercion_keeps_text (s : String)
    (h : numPattern (stripChars s) = true) :
    (LimpiarComillas.clean_cell (Cell.str s) false =
        Cell.str (removeSpaces (stripChars s)) ∧
      (removeSpaces (stripChars s)).data.count ',' = (stripChars s).data.count ',' ∧
      (removeSpaces (stripChars s)).data.count '.' = (stripChars s).data.count '.') ∧
    LimpiarComillas.clean_cell (Cell.str "' 1 234,56 '") false = Cell.str "1234,56" ∧
    LimpiarComillas.clean_cell (Cell.str "' 1 234,56 '") true =
      Cell.num ((123456 : Rat) / 100) := by
  refine ⟨⟨by simp [LimpiarComillas.clean_cell, h], ?_, ?_⟩, by decide, ?_⟩
  · unfold removeSpaces
    exact List.count_filter (by decide)
  · unfold removeSpaces
    exact List.count_filter (by decide)
  · have hc : LimpiarComillas.clean_cell (Cell.str "' 1 234,56 '") true =
        Cell.num ((digitsToNat ['1', '2', '3', '4'] : Rat) +
          (digitsToNat ['5', '6'] : Rat) / (10 : Rat) ^ (2 : Nat)) := rfl
    rw [hc]
    have hval : (digitsToNat ['1', '2', '3', '4'] : Rat) +
        (digitsToNat ['5', '6'] : Rat) / (10 : Rat) ^ (2 : Nat) =
        (123456 : Rat) / 100 := by
      show ((1234 : Nat) : Rat) + ((56 : Nat) : Rat) / (10 : Rat) ^ (2 : Nat) =
        (123456 : Rat) / 100
      push_cast
      norm_num
    rw [hval]

theorem no_coercion_keeps_text_witness :
    LimpiarComillas.clean_cell (Cell.str "' 7 7 '") false = Cell.str "77" ∧
    LimpiarComillas.clean_cell (Cell.str "1\u00a07,5") false = Cell.str "1\u00a07,5" := by
  constructor
  · rw [((no_coercion_keeps_text "' 7 7 '" (by decide)).1).1]
    decide
  · rw [((no_coercion_keeps_text "1\u00a07,5" (by decide)).1).1]
    decide

/-- C7: the assembled pipeline configures its encoder with
`handle_unknown="ignore"`, so a category never seen at fit time maps to the
all-zero indicator row and the transform returns a value (no error). -/
theorem unseen_category_all_zero (X : Table) (cats : List Cell) (v : Cell)
    (h : v ∉ cats) :
    oheTransformCell (crear_pipeline_completo X).handle_unknown_ignore cats v =
      some (cats.map (fun _ => Cell.num 0)) := by
  have hig : (crear_pipeline_completo X).handle_unknown_ignore = true := rfl
  rw [hig]
  unfold oheTransformCell
  rw [if_neg h, if_pos rfl]

theorem unseen_category_all_zero_witness :
    oheTransformCell
      (crear_pipeline_completo [("c", true, [Cell.str "a"])]).handle_unknown_ignore
      [Cell.str "a"] (Cell.str "b") = some [Cell.num 0] := by
  rw [unseen_category_all_zero [("c", true, [Cell.str "a"])] [Cell.str "a"]
    (Cell.str "b") (by decide)]
  rfl

/-- C8: the assembled `ColumnTransformer` has `sparse_threshold = 0`, so for
every (nonnegative) density the stacked output is materialized dense, and
every transformed row is the column-wise concatenation of the scaled
numeric branch and the flattened one-hot branch. -/
theorem dense_output_concat (X : Table) (b : Bool) (d : Rat) (hd : 0 ≤ d) :
    outputSparse (crear_pipeline_completo X).sparse_threshold b d = false ∧
    ∀ (cfg : PreprocConfig) (f : FittedPreproc) (t : Table) (i : Nat) (r : List Cell),
      transformRowAt cfg f t i = some r →
      ∃ catRows,
        f.catVocabs.mapM
          (fun s => oheTransformCell cfg.handle_unknown_ignore s.2 (cellAt t s.1 i)) =
            some catRows ∧
        r = f.numStats.map (fun s => scaleCell s.2.1 s.2.2 (cellAt t s.1 i)) ++
          catRows.flatten := by
  constructor
  · unfold outputSparse
    have hthr : (crear_pipeline_completo X).sparse_threshold = 0 := rfl
    rw [hthr, decide_eq_false (not_lt.mpr hd), Bool.and_false]
  · intro cfg f t i r h
    unfold transformRowAt at h
    cases hm : f.catVocabs.mapM
        (fun s => oheTransformCell cfg.handle_unknown_ignore s.2 (cellAt t s.1 i)) with
    | none => rw [hm] at h; simp at h
    | some catRows =>
      rw [hm] at h
      exact ⟨catRows, rfl, (Option.some_inj.mp h).symm⟩

theorem dense_output_concat_witness :
    outputSparse (crear_pipeline_completo []).sparse_threshold true 0 = false :=
  (dense_output_concat [] true 0 le_rfl).1

/-- C10 counterexample: the cell `"\t"` consists only of whitespace, but
`strip(" '")` does not remove the tab, the stripped form is nonempty and
matches the numeric pattern, and with coercion the cell becomes missing —
not the empty string the claim predicts. -/
theorem quotes_spaces_counterexample :
    LimpiarComillas.clean_cell (Cell.str "\t") true = Cell.missing ∧
    Cell.missing ≠ Cell.str "" := by decide

/-- C10 (amended): a textual cell consisting only of single quotes and/or
ASCII spaces strips to the empty string, fails the at-least-one-character
pattern, and is kept as empty text under either flag — neither missing nor
numeric. -/
theorem quotes_spaces_empty (s : String) (b : Bool)
    (h : ∀ c ∈ s.data, c = '\'' ∨ c = ' ') :
    LimpiarComillas.clean_cell (Cell.str s) b = Cell.str "" := by
  have hstrip : stripChars s = "" := string_data_injective (by
    rw [stripChars_data]
    exact trimEnds_eq_nil (fun c hc => by rcases h c hc with rfl | rfl <;> decide))
  have hpat : numPattern "" = false := by decide
  simp [LimpiarComillas.clean_cell, hstrip, hpat]

theorem quotes_spaces_empty_witness :
    LimpiarComillas.clean_cell (Cell.str "''") true = Cell.str "" :=
  quotes_spaces_empty "''" true (by decide)
